import Mathlib

/-!
Verification development for the icelanddbv2 extraction/normalization core.

The TypeScript scripts are shallowly embedded: DOM queries of the cheerio
library become record fields holding the queried data (an element's class
string, its span texts, its player-profile links, ...), and every pure
computation of the scripts (string cleaning, header folding, regular
expressions over the queried text, index assignment, deduplication,
sorting, the crawl loop, the substitution minute backfill) is translated
function by function.  JavaScript regular expressions are realized as
explicit character-list scanners; JS `Array.prototype.sort` (a stable sort
by the comparator's total preorder) is realized by `List.insertionSort`,
which is stable for the same preorder and therefore computes the same list.
-/

namespace IcelandDB

/-! ## Generic string helpers shared by all scripts -/

/-- One step of `clean` / `cleanText`: JS `replace(/\s+/g, " ")` maps every
whitespace character to a space first. -/
def mapWsChar (ch : Char) : Char := if ch.isWhitespace then ' ' else ch

/-- Collapse runs of spaces to a single space (second half of `replace(/\s+/g, " ")`). -/
def squeezeSpaces : List Char → List Char
  | [] => []
  | [ch] => [ch]
  | a :: b :: rest =>
    if a = ' ' && b = ' ' then squeezeSpaces (b :: rest)
    else a :: squeezeSpaces (b :: rest)

/-- JS `String.prototype.trim`. -/
def jsTrim (l : List Char) : List Char :=
  ((l.dropWhile Char.isWhitespace).reverse.dropWhile Char.isWhitespace).reverse

/-- `clean` / `cleanText` of the scripts: `String(s ?? "").replace(/\s+/g, " ").trim()`. -/
def clean (s : String) : String :=
  String.mk (jsTrim (squeezeSpaces (s.toList.map mapWsChar)))

/-- Whether `pat` occurs at the start of `l` (helper for substring search). -/
def listStartsWith : List Char → List Char → Bool
  | [], _ => true
  | _ :: _, [] => false
  | p :: ps, c :: cs => p = c && listStartsWith ps cs

/-- Whether `pat` occurs anywhere in `l` (helper for substring search). -/
def hasSub (pat : List Char) : List Char → Bool
  | [] => listStartsWith pat []
  | c :: cs => listStartsWith pat (c :: cs) || hasSub pat cs

/-- JS `String.prototype.includes`. -/
def strContains (s pat : String) : Bool := hasSub pat.toList s.toList

/-- JS `String.prototype.toLowerCase`, restricted to the ASCII range that the
folded header vocabulary and the color/class tokens of the scripts live in. -/
def lowerStr (s : String) : String := String.mk (s.toList.map Char.toLower)

/-- Numeric value of a digit list (JS `Number` on an all-digit string). -/
def digitsToNat (l : List Char) : Nat :=
  l.foldl (fun n ch => n * 10 + (ch.toNat - 48)) 0

/-- JS `a || b` on nullable strings: `null`, `undefined` and `""` are falsy. -/
def orOptStr (a b : Option String) : Option String :=
  match a with
  | some s => if s = "" then b else a
  | none => b

/-- JS truthiness test for a nullable string. -/
def optStrFalsy : Option String → Bool
  | none => true
  | some s => s = ""

/-- `s || null` for a JS string. -/
def strToOpt (s : String) : Option String := if s = "" then none else some s

/-- `getParamId` of the scrapers over the characters of an href: the regex
`[?&]id=(\d+)` (with `key = "id"`), scanning left to right for the first
`?`/`&` followed by `key=` and at least one digit, returning the maximal
digit run. -/
def getParamIdChars (key : List Char) : List Char → Option String
  | [] => none
  | ch :: rest =>
    if (ch = '?' || ch = '&') && listStartsWith (key ++ ['=']) rest then
      let ds := (rest.drop (key.length + 1)).takeWhile Char.isDigit
      if ds.isEmpty then getParamIdChars key rest else some (String.mk ds)
    else getParamIdChars key rest

/-- `getParamId(href, key)` of `scrape-match-lineups.ts` / `scrape-events-overview.ts`:
`href.match(new RegExp("[?&]" + key + "=(\\d+)"))`, first capture or null. -/
def getParamId (href : String) (key : String) : Option String :=
  getParamIdChars key.toList href.toList

/-! ## Lineup extractor (`scripts/scrape-match-lineups.ts`) -/

/-- The quote glyphs of `stripTrailingMinutes`'s character class: acute
accent U+00B4, the ASCII apostrophe U+0027 and the right single quotation
mark U+2019.  (Compared by code point to keep the source file free of
quote-character literals.) -/
def isMinuteMark (ch : Char) : Bool :=
  ch.toNat = 180 || ch.toNat = 39 || ch.toNat = 8217

/-- Tail of `stripTrailingMinutes`'s regex, reading the reversed string:
after the quote glyph and optional substitution-stoppage group comes the
main minute number `\d{1,3}` which must be preceded by whitespace `\s+`
(the whole whitespace run belongs to the match; the caller trims anyway). -/
def minuteNumberRev (s : List Char) : Option (List Char) :=
  let ds := s.takeWhile Char.isDigit
  let rest := s.dropWhile Char.isDigit
  if 1 ≤ ds.length && ds.length ≤ 3 then
    match rest with
    | c :: _ => if c.isWhitespace then some (rest.dropWhile Char.isWhitespace) else none
    | [] => none
  else none

/-- `stripTrailingMinutes`'s regex `\s+\d{1,3}(?:\s*\+\s*\d{1,2})?\s*[´'’]\s*$`
matched against the reversed character list; returns the reversed remainder
when the anchored pattern matches.  The optional `+\d{1,2}` stoppage group is
tried first, matching the regex engine's leftmost-match (longest, since the
match is anchored at the end) rule. -/
def stripMinTokenRev (r : List Char) : Option (List Char) :=
  match (r.dropWhile Char.isWhitespace) with
  | [] => none
  | q :: r2 =>
    if isMinuteMark q then
      let r3 := r2.dropWhile Char.isWhitespace
      let bs := r3.takeWhile Char.isDigit
      let r4 := r3.dropWhile Char.isDigit
      let grouped :=
        if 1 ≤ bs.length && bs.length ≤ 2 then
          match r4.dropWhile Char.isWhitespace with
          | '+' :: r6 => minuteNumberRev (r6.dropWhile Char.isWhitespace)
          | _ => none
        else none
      match grouped with
      | some res => some res
      | none => minuteNumberRev r3
    else none

/-- `stripTrailingMinutes(name)`: removes a trailing minute token such as
`55´` or `90+2´` and trims. -/
def stripTrailingMinutes (name : String) : String :=
  match stripMinTokenRev name.toList.reverse with
  | some r => String.mk (jsTrim r.reverse)
  | none => String.mk (jsTrim name.toList)

/-- `name.replace(/\(M\)/gi, "")`: drop every `(M)` / `(m)` occurrence. -/
def removeGkTokens : List Char → List Char
  | '(' :: x :: ')' :: rest =>
    if x = 'M' || x = 'm' then removeGkTokens rest
    else '(' :: removeGkTokens (x :: ')' :: rest)
  | c :: rest => c :: removeGkTokens rest
  | [] => []

/-- `/\(M\)/i.test(name)`. -/
def gkMarkerTest (name : String) : Bool :=
  hasSub ['(', 'M', ')'] name.toList || hasSub ['(', 'm', ')'] name.toList

/-- `stripGkMarker(name)` returning `(name without markers, is_gk)`. -/
def stripGkMarker (name : String) : String × Bool :=
  (String.mk (jsTrim (removeGkTokens name.toList)), gkMarkerTest name)

/-- A row-like child of a lineup list container.  DOM queries of the source
become fields: `isA`/`isDiv` are `$el.is("a")`/`$el.is("div")`,
`hasGroupClass` is `hasClass("group")`, `href` the `href` attribute
(`""` when absent), `shirtSpanText` the text of the first span matched by
`span.w-\[20rem\], span.body-5`, `spanTexts` the texts of all descendant
spans in order, and `flatText` the flattened `$el.text()`. -/
structure LineupItem where
  isA : Bool
  isDiv : Bool
  hasGroupClass : Bool
  href : String
  shirtSpanText : String
  spanTexts : List String
  flatText : String
deriving Repr, DecidableEq

/-- Home/away side of a lineup entry. -/
inductive Side
  | home
  | away
deriving Repr, DecidableEq

/-- Starting XI or bench. -/
inductive Squad
  | xi
  | bench
deriving Repr, DecidableEq

/-- `LineupRow` of `scrape-match-lineups.ts` (the `raw` payload kept as its
two parts). -/
structure LineupRow where
  ksi_match_id : String
  lineup_idx : Nat
  ksi_team_id : Option String
  side : Side
  squad : Squad
  ksi_player_id : Option String
  player_name : String
  shirt_number : Option Nat
  is_gk : Option Bool
  raw_href : Option String
  raw_text : String
deriving Repr, DecidableEq

/-- First element of maximal length: the `[0]` of the stable descending
`sort((a, b) => b.length - a.length)` on the span texts. -/
def firstMaxLen : List String → Option String
  | [] => none
  | s :: rest =>
    match firstMaxLen rest with
    | none => some s
    | some t => if t.length > s.length then some t else some s

/-- The per-row body of `parseLineupList`'s loop. -/
def mkLineupRow (ksiMatchId : String) (ksiTeamId : Option String) (squad : Squad)
    (side : Side) (idx : Nat) (el : LineupItem) : LineupRow :=
  let href := if el.isA then el.href else ""
  let ksi_player_id := if href = "" then none else getParamId href "id"
  let shirtTxt := clean el.shirtSpanText
  let shirt_number :=
    if shirtTxt.toList.all Char.isDigit && !shirtTxt.toList.isEmpty
    then some (digitsToNat shirtTxt.toList) else none
  let spanTexts := (el.spanTexts.map clean).filter (fun t => t ≠ "")
  let nameRaw0 :=
    match spanTexts.find? (fun t => strContains t "(M)") with
    | some t => t
    | none =>
      match firstMaxLen spanTexts with
      | some t => t
      | none => clean el.flatText
  let nameRaw := stripTrailingMinutes nameRaw0
  let gk := stripGkMarker nameRaw
  let player_name := (orOptStr (strToOpt gk.1) (orOptStr (strToOpt nameRaw) (some "—"))).getD "—"
  { ksi_match_id := ksiMatchId
    lineup_idx := idx
    ksi_team_id := ksiTeamId
    side := side
    squad := squad
    ksi_player_id := ksi_player_id
    player_name := player_name
    shirt_number := shirt_number
    is_gk := if gk.2 then some true else none
    raw_href := if href = "" then none else some href
    raw_text := clean el.flatText }

/-- The filter selecting row-like children:
`($el.is("a") || $el.is("div")) && $el.hasClass("group")`. -/
def isLineupRowItem (el : LineupItem) : Bool :=
  (el.isA || el.isDiv) && el.hasGroupClass

/-- The accumulation loop of `parseLineupList`: each pushed row gets
`lineup_idx = startIdx + rows.length`, i.e. consecutive indices from
`startIdx`. -/
def buildLineupRows (ksiMatchId : String) (ksiTeamId : Option String) (squad : Squad)
    (side : Side) : Nat → List LineupItem → List LineupRow
  | _, [] => []
  | idx, el :: rest =>
    mkLineupRow ksiMatchId ksiTeamId squad side idx el ::
      buildLineupRows ksiMatchId ksiTeamId squad side (idx + 1) rest

/-- `parseLineupList($, ksiMatchId, ksiTeamId, squad, side, $list, startIdx)`. -/
def parseLineupList (ksiMatchId : String) (ksiTeamId : Option String) (squad : Squad)
    (side : Side) (listChildren : List LineupItem) (startIdx : Nat) : List LineupRow :=
  buildLineupRows ksiMatchId ksiTeamId squad side startIdx (listChildren.filter isLineupRowItem)

/-- A child of the lineup grid, as `findLineupListsForLabel` inspects it:
`isDiv` is `x.is("div")`, `hasSideImg` whether it contains
`img[alt='Heimamenn'], img[alt='Gestir']`, `firstSpanText` the text of its
first span, `hasPlayerLink` whether it contains
`a[href^='/leikmenn/leikmadur?id=']`, and `children` its child elements
(the candidate row items). -/
structure LineupNode where
  isDiv : Bool
  hasSideImg : Bool
  firstSpanText : String
  hasPlayerLink : Bool
  children : List LineupItem
deriving Repr, DecidableEq

/-- `isHeader` of `findLineupListsForLabel`. -/
def isHeaderNode (label : String) (n : LineupNode) : Bool :=
  n.hasSideImg && (clean n.firstSpanText == label)

/-- `looksLikeList` of `findLineupListsForLabel`. -/
def looksLikeListNode (n : LineupNode) : Bool :=
  n.isDiv && n.hasPlayerLink

/-- `findLineupListsForLabel`: scan the grid children for two adjacent
headers with the given label followed by two list containers; first match
wins, otherwise advance by one child. -/
def findLineupListsForLabel (label : String) : List LineupNode → Option (LineupNode × LineupNode)
  | a :: b :: x :: y :: rest =>
    if isHeaderNode label a && isHeaderNode label b &&
        looksLikeListNode x && looksLikeListNode y
    then some (x, y)
    else findLineupListsForLabel label (b :: x :: y :: rest)
  | _ => none

/-- A candidate `div.grid.grid-cols-2` of the report page: the alt texts of
its images, the texts of its spans, and its children. -/
structure LineupGridRec where
  imgAlts : List String
  spanTexts : List String
  kids : List LineupNode
deriving Repr, DecidableEq

/-- `findLineupGrid`: the first grid containing both side icons and a span
whose cleaned text is the starting-XI label. -/
def findLineupGrid (grids : List LineupGridRec) : Option LineupGridRec :=
  grids.find? (fun g =>
    (g.imgAlts.any (fun a => a == "Heimamenn")) &&
    (g.imgAlts.any (fun a => a == "Gestir")) &&
    (g.spanTexts.any (fun s => clean s == "Byrjunarlið")))

/-- The starting-XI block of `parseLineupsFromReportHtml`: home list from
index 0, away list continuing at `out.length` (= the home rows so far). -/
def startingBlock (g : LineupGridRec) (ksiMatchId : String)
    (homeTeamId awayTeamId : Option String) : List LineupRow :=
  match findLineupListsForLabel "Byrjunarlið" g.kids with
  | none => []
  | some lists =>
    let r1 := parseLineupList ksiMatchId homeTeamId Squad.xi Side.home lists.1.children 0
    let r2 := parseLineupList ksiMatchId awayTeamId Squad.xi Side.away lists.2.children r1.length
    r1 ++ r2

/-- The bench block of `parseLineupsFromReportHtml`, continuing the running
counter at `startIdx` (= `out.length` after the starting block); a missing
bench pair contributes nothing. -/
def benchBlock (g : LineupGridRec) (ksiMatchId : String)
    (homeTeamId awayTeamId : Option String) (startIdx : Nat) : List LineupRow :=
  match findLineupListsForLabel "Varamenn" g.kids with
  | none => []
  | some lists =>
    let r3 := parseLineupList ksiMatchId homeTeamId Squad.bench Side.home lists.1.children startIdx
    let r4 := parseLineupList ksiMatchId awayTeamId Squad.bench Side.away lists.2.children (startIdx + r3.length)
    r3 ++ r4

/-- `parseLineupsFromReportHtml($, ksiMatchId, homeTeamId, awayTeamId)`:
starting lists then bench lists, the running index `idx` re-read from
`out.length` after every block (the source returns `out` unchanged when the
bench pair is missing, which is the append of the empty bench block). -/
def parseLineupsFromReportHtml (grids : List LineupGridRec) (ksiMatchId : String)
    (homeTeamId awayTeamId : Option String) : List LineupRow :=
  match findLineupGrid grids with
  | none => []
  | some g =>
    let out1 := startingBlock g ksiMatchId homeTeamId awayTeamId
    out1 ++ benchBlock g ksiMatchId homeTeamId awayTeamId out1.length

/-! ## Event extractor (`scripts/scrape-events-overview.ts` and the U-19
variant `scripts/scrape-events-overview-u19.ts`) -/

/-- The enclosing `div.col-span-3` row of an event node: its (raw) class
attribute, its flattened text, and the text of its first
`span.text-\[10rem\]` stoppage bubble, when present. -/
structure EventRowNode where
  cls : String
  text : String
  stopSpanText : Option String
deriving Repr, DecidableEq

/-- An atomic `div.match-event[data-event-id]` node: its enclosing row (none
when `closest("div.col-span-3")` is empty), its player-profile links
`a[href^='/leikmenn/leikmadur?id=']` as (href, text) pairs in DOM order,
whether a yellow-card marker `div.bg-\[\#FAC83C\], div[style*='FAC83C']`
is present, the html of each descendant svg, and the first links carrying
the green/red substitution text colors. -/
structure EventNode where
  row : Option EventRowNode
  playerLinks : List (String × String)
  hasYellowMarker : Bool
  svgHtmls : List String
  greenLink : Option (String × String)
  redLink : Option (String × String)
deriving Repr, DecidableEq

/-- A candidate events container: its class attribute and its
`div.match-event[data-event-id]` descendants. -/
structure EventsGridRec where
  cls : String
  events : List EventNode
deriving Repr, DecidableEq

/-- The overview page as `findAtburdirGrid` inspects it: all span texts (for
the label search), the divs following the label's container, and all divs
of the page (for the fallback). -/
structure EventsPage where
  spanTexts : List String
  divsAfterLabel : List EventsGridRec
  allDivs : List EventsGridRec
deriving Repr, DecidableEq

/-- The class filter of `findAtburdirGrid`:
`cls.includes("grid") && cls.includes("grid-cols-[1fr_auto_1fr]")` on the
cleaned class attribute. -/
def gridClsOk (g : EventsGridRec) : Bool :=
  strContains (clean g.cls) "grid" && strContains (clean g.cls) "grid-cols-[1fr_auto_1fr]"

/-- `findAtburdirGrid`: label-anchored search first (the first matching div
after the label's container), then the page-wide first matching div. -/
def findAtburdirGrid (p : EventsPage) : Option EventsGridRec :=
  let labelFound := p.spanTexts.any (fun s => lowerStr (clean s) == "atburðir")
  let fallback := (p.allDivs.filter gridClsOk).head?
  if labelFound then
    match (p.divsAfterLabel.filter gridClsOk).head? with
    | some g => some g
    | none => fallback
  else fallback

/-- First run of up to three digits in a character list: the capture of
`txt.match(/(\d{1,3})(?:\s*’\s*|\s*’)?/)` (the quote group is optional, so
only the digits matter). -/
def firstDigitRun : List Char → Option (List Char)
  | [] => none
  | ch :: rest =>
    if ch.isDigit then some (ch :: (rest.takeWhile Char.isDigit).take 2)
    else firstDigitRun rest

/-- `parseMinuteFromRow`: minute from the first digit run of the row's
cleaned text (the minute-bubble lookup in the source is computed but never
used), stoppage from the first `span.text-\[10rem\]` when its cleaned text
matches `^\d{1,2}$`. -/
def parseMinuteFromRow (r : EventRowNode) : Option Nat × Option Nat :=
  let minute := (firstDigitRun (clean r.text).toList).map digitsToNat
  let stoppage :=
    match r.stopSpanText with
    | some s =>
      let t := clean s
      if 1 ≤ t.toList.length && t.toList.length ≤ 2 && t.toList.all Char.isDigit
      then some (digitsToNat t.toList) else none
    | none => none
  (minute, stoppage)

/-- `detectEventType`: yellow marker, then the two substitution stroke
colors inside the joined svg html (case-insensitive), then
single-player-with-svg = goal, else unknown. -/
def detectEventType (ev : EventNode) (playerCount : Nat) : String :=
  if ev.hasYellowMarker then "yellow"
  else
    let svgHtml := clean (String.intercalate " " (ev.svgHtmls.map clean))
    if strContains (lowerStr svgHtml) "#1a7941" && strContains (lowerStr svgHtml) "#dd3636"
    then "substitution"
    else if playerCount = 1 && !ev.svgHtmls.isEmpty then "goal"
    else "unknown"

/-- `EventRow` of the overview scrapers (the `raw` payload kept as the row
text; the html captures carry no further information in the embedding). -/
structure EventRow where
  ksi_match_id : String
  event_idx : Nat
  minute : Nat
  stoppage : Option Nat
  event_type : String
  ksi_team_id : Option String
  ksi_player_id : Option String
  player_name : Option String
  sub_on_ksi_player_id : Option String
  sub_off_ksi_player_id : Option String
  sub_on_name : Option String
  sub_off_name : Option String
  raw_text : String
deriving Repr, DecidableEq

/-- `ids[i] && playerToTeam.get(String(ids[i]))`: a falsy id short-circuits,
otherwise the map lookup. -/
def lookupIfTruthy (pmap : List (String × String)) : Option String → Option String
  | some i => if i = "" then none else List.lookup i pmap
  | none => none

/-- `String(stoppage ?? "")` as it enters the dedup key. -/
def optNatStr : Option Nat → String
  | some n => toString n
  | none => ""

/-- The club-adults convention of `scrape-events-overview.ts`:
`isHomeSide = rowCls.includes("flex-row-reverse")`, so a reversed row is
attributed to the home team. -/
def mainColumnTeam (rowCls : String) (homeTeamId awayTeamId : Option String) : Option String :=
  if strContains rowCls "flex-row-reverse" then homeTeamId else awayTeamId

/-- The U-19 convention of `scrape-events-overview-u19.ts`:
`isAwayColumn = rowCls.includes("flex-row-reverse")`, so a reversed row is
attributed to the away team. -/
def u19ColumnTeam (rowCls : String) (homeTeamId awayTeamId : Option String) : Option String :=
  if strContains rowCls "flex-row-reverse" then awayTeamId else homeTeamId

/-- The loop body shared verbatim by both overview scrapers, the column-team
convention abstracted as `colTeamOf` over the cleaned row class.  Returns
the dedup key together with the event record, or none when the row wrapper
is missing or no minute parses. -/
def eventToRow (ksiMatchId : String) (colTeamOf : String → Option String)
    (playerToTeam : List (String × String)) (ev : EventNode) : Option (String × EventRow) :=
  match ev.row with
  | none => none
  | some row =>
    let rowCls := clean row.cls
    let columnTeamId := colTeamOf rowCls
    match (parseMinuteFromRow row).1 with
    | none => none
    | some minute =>
      let stoppage := (parseMinuteFromRow row).2
      let ids := ev.playerLinks.map (fun pl => getParamId pl.1 "id")
      let names := ev.playerLinks.map (fun pl => clean pl.2)
      let playerCount := ev.playerLinks.length
      let eventType := detectEventType ev playerCount
      let teamId :=
        orOptStr (lookupIfTruthy playerToTeam (ids.getD 0 none))
          (orOptStr (lookupIfTruthy playerToTeam (ids.getD 1 none))
            (orOptStr columnTeamId none))
      let subOn0 : Option String × Option String :=
        if eventType == "substitution" then
          match ev.greenLink with
          | some gl => (getParamId gl.1 "id", strToOpt (clean gl.2))
          | none => (none, none)
        else (none, none)
      let subOff0 : Option String × Option String :=
        if eventType == "substitution" then
          match ev.redLink with
          | some rl => (getParamId rl.1 "id", strToOpt (clean rl.2))
          | none => (none, none)
        else (none, none)
      let subOn :=
        if eventType == "substitution" && optStrFalsy subOn0.1 && !optStrFalsy (ids.getD 0 none)
        then (ids.getD 0 none, strToOpt (names.getD 0 "")) else subOn0
      let subOff :=
        if eventType == "substitution" && optStrFalsy subOff0.1 && !optStrFalsy (ids.getD 1 none)
        then (ids.getD 1 none, strToOpt (names.getD 1 "")) else subOff0
      let singlePlayerId := if eventType != "substitution" then ids.getD 0 none else none
      let singlePlayerName := if eventType != "substitution" then names.get? 0 else none
      let rawText := clean row.text
      let key := String.intercalate "|"
        [toString minute, optNatStr stoppage, eventType, teamId.getD "",
         singlePlayerId.getD "", subOn.1.getD "", subOff.1.getD ""]
      some (key,
        { ksi_match_id := ksiMatchId
          event_idx := 0
          minute := minute
          stoppage := stoppage
          event_type := eventType
          ksi_team_id := teamId
          ksi_player_id := singlePlayerId
          player_name := singlePlayerName
          sub_on_ksi_player_id := if eventType == "substitution" then subOn.1 else none
          sub_off_ksi_player_id := if eventType == "substitution" then subOff.1 else none
          sub_on_name := if eventType == "substitution" then subOn.2 else none
          sub_off_name := if eventType == "substitution" then subOff.2 else none
          raw_text := rawText })

/-- The event loop with its `seen` dedup set: first occurrence of a key wins. -/
def processEvents (ksiMatchId : String) (colTeamOf : String → Option String)
    (playerToTeam : List (String × String)) : List EventNode → List String → List EventRow
  | [], _ => []
  | ev :: rest, seen =>
    match eventToRow ksiMatchId colTeamOf playerToTeam ev with
    | none => processEvents ksiMatchId colTeamOf playerToTeam rest seen
    | some kr =>
      if seen.contains kr.1 then processEvents ksiMatchId colTeamOf playerToTeam rest seen
      else kr.2 :: processEvents ksiMatchId colTeamOf playerToTeam rest (kr.1 :: seen)

/-- Three-way comparison of naturals (`a - b` in the JS comparator). -/
def cmpNat (a b : Nat) : Ordering :=
  if a < b then Ordering.lt else if b < a then Ordering.gt else Ordering.eq

/-- Lexicographic three-way comparison of character lists: the effect of
`localeCompare` on the digit-string team ids and ASCII event-type names the
comparator sees (code-point order). -/
def cmpChL : List Char → List Char → Ordering
  | [], [] => Ordering.eq
  | [], _ :: _ => Ordering.lt
  | _ :: _, [] => Ordering.gt
  | a :: as, b :: bs => (cmpNat a.toNat b.toNat).then (cmpChL as bs)

/-- Compare under a projection. -/
def onCmp (f : α → β) (cmp : β → β → Ordering) : α → α → Ordering :=
  fun a b => cmp (f a) (f b)

/-- The comparator of `out.sort(...)` in both overview scrapers: minute,
then `stoppage ?? 0`, then `(ksi_team_id ?? "").localeCompare`, then
`event_type.localeCompare`. -/
def evCmp : EventRow → EventRow → Ordering :=
  compareLex (onCmp (fun e => e.minute) cmpNat)
    (compareLex (onCmp (fun e => e.stoppage.getD 0) cmpNat)
      (compareLex (onCmp (fun e => (e.ksi_team_id.getD "").toList) cmpChL)
        (onCmp (fun e => e.event_type.toList) cmpChL)))

/-- The total preorder the comparator induces ("a sorts no later than b"). -/
def evLe (a b : EventRow) : Prop := evCmp a b ≠ Ordering.gt

instance : DecidableRel evLe := fun a b => inferInstanceAs (Decidable (evCmp a b ≠ Ordering.gt))

theorem cmpNat_swap (a b : Nat) : (cmpNat a b).swap = cmpNat b a := by
  unfold cmpNat
  repeat' split
  all_goals first | rfl | omega

theorem cmpNat_eq_gt {a b : Nat} : cmpNat a b = Ordering.gt ↔ b < a := by
  unfold cmpNat
  repeat' split
  all_goals simp
  all_goals omega

theorem cmpNat_eq_eq {a b : Nat} : cmpNat a b = Ordering.eq ↔ a = b := by
  unfold cmpNat
  repeat' split
  all_goals simp
  all_goals omega

instance : Batteries.TransCmp cmpNat where
  symm a b := cmpNat_swap a b
  le_trans {a b c} h1 h2 := by
    rw [Ne, cmpNat_eq_gt] at h1 h2 ⊢
    omega

theorem cmpChL_swap : ∀ x y : List Char, (cmpChL x y).swap = cmpChL y x
  | [], [] => rfl
  | [], _ :: _ => rfl
  | _ :: _, [] => rfl
  | a :: as, b :: bs => by
    simp only [cmpChL, Ordering.swap_then, cmpNat_swap, cmpChL_swap as bs]

theorem cmpChL_le_trans : ∀ (x y z : List Char),
    cmpChL x y ≠ Ordering.gt → cmpChL y z ≠ Ordering.gt → cmpChL x z ≠ Ordering.gt := by
  intro x y z
  induction x generalizing y z with
  | nil =>
    intro _ _
    cases z <;> simp [cmpChL]
  | cons a as ih =>
    intro h1 h2
    cases y with
    | nil => simp [cmpChL] at h1
    | cons b bs =>
      cases z with
      | nil => simp [cmpChL] at h2
      | cons c cs =>
        simp only [cmpChL, Ne, Ordering.then_eq_gt, not_or, not_and, cmpNat_eq_gt,
          cmpNat_eq_eq] at h1 h2 ⊢
        obtain ⟨hn1, he1⟩ := h1
        obtain ⟨hn2, he2⟩ := h2
        refine ⟨by omega, fun hac => ?_⟩
        have hab : a.toNat = b.toNat := by omega
        have hbc : b.toNat = c.toNat := by omega
        exact ih bs cs (he1 hab) (he2 hbc)

instance : Batteries.TransCmp cmpChL where
  symm a b := cmpChL_swap a b
  le_trans {a b c} h1 h2 := cmpChL_le_trans a b c h1 h2

instance transCmpOnCmp {f : α → β} {cmp : β → β → Ordering} [Batteries.TransCmp cmp] :
    Batteries.TransCmp (onCmp f cmp) where
  symm a b := @Batteries.OrientedCmp.symm _ cmp inferInstance (f a) (f b)
  le_trans h1 h2 := @Batteries.TransCmp.le_trans _ cmp inferInstance _ _ _ h1 h2

instance : Batteries.TransCmp evCmp :=
  inferInstanceAs (Batteries.TransCmp (compareLex _ _))

instance : IsTotal EventRow evLe where
  total a b := by
    by_cases h : evCmp a b = Ordering.gt
    · right
      have hs := @Batteries.OrientedCmp.symm _ evCmp inferInstance a b
      rw [h] at hs
      have : evCmp b a = Ordering.lt := by rw [← hs]; rfl
      simp [evLe, this]
    · exact Or.inl h

instance : IsTrans EventRow evLe :=
  ⟨fun _ _ _ h1 h2 => @Batteries.TransCmp.le_trans _ evCmp inferInstance _ _ _ h1 h2⟩

/-- `out.forEach((e, i) => (e.event_idx = i))`, from a start index. -/
def assignIdxFrom (i : Nat) : List EventRow → List EventRow
  | [] => []
  | e :: rest => { e with event_idx := i } :: assignIdxFrom (i + 1) rest

/-- `parseOverviewEventsFromHtml` of `scrape-events-overview.ts`: locate the
grid, run the dedup loop, stable-sort by the comparator, assign indices. -/
def parseOverviewEventsFromHtml (page : EventsPage) (ksiMatchId : String)
    (homeTeamId awayTeamId : Option String) (playerToTeam : List (String × String)) : List EventRow :=
  match findAtburdirGrid page with
  | none => []
  | some g =>
    assignIdxFrom 0 (List.insertionSort evLe
      (processEvents ksiMatchId (fun cls => mainColumnTeam cls homeTeamId awayTeamId)
        playerToTeam g.events []))

/-- `parseOverviewEventsFromHtml` of `scrape-events-overview-u19.ts`:
identical except for the reversed-row convention. -/
def parseOverviewEventsFromHtmlU19 (page : EventsPage) (ksiMatchId : String)
    (homeTeamId awayTeamId : Option String) (playerToTeam : List (String × String)) : List EventRow :=
  match findAtburdirGrid page with
  | none => []
  | some g =>
    assignIdxFrom 0 (List.insertionSort evLe
      (processEvents ksiMatchId (fun cls => u19ColumnTeam cls homeTeamId awayTeamId)
        playerToTeam g.events []))

/-! ## Substitution minute backfill (`applySubMinutesToLineups` of
`scrape-events-overview.ts`) -/

/-- A stored `match_lineups` row as the backfill step sees it.  The script
selects `id, ksi_player_id, minute_in, minute_out`; the remaining columns
(represented here by the other fields) are carried along to state the frame
property that the step leaves them untouched. -/
structure StoredLineup where
  id : Nat
  ksi_player_id : Option String
  minute_in : Option Nat
  minute_out : Option Nat
  ksi_match_id : String
  lineup_idx : Nat
  player_name : String
deriving Repr, DecidableEq

/-- The snapshot entry kept in the `byPlayer` map. -/
structure ByPlayerEntry where
  id : Nat
  minute_in : Option Nat
  minute_out : Option Nat
deriving Repr, DecidableEq

/-- The `byPlayer` map: `Map.set` overwrites, so a later row with the same
player id shadows an earlier one; realized as a prepend list with
first-match lookup. -/
def byPlayerMap (lineups : List StoredLineup) : List (String × ByPlayerEntry) :=
  lineups.foldl (fun m r =>
    match r.ksi_player_id with
    | some pid => (pid, { id := r.id, minute_in := r.minute_in, minute_out := r.minute_out }) :: m
    | none => m) []

/-- One queued `update` object: the target row id and the single column the
script includes (`{ id, minute_in }` or `{ id, minute_out }`). -/
structure LineupUpd where
  id : Nat
  minute_in : Option Nat
  minute_out : Option Nat
deriving Repr, DecidableEq

/-- The `onId` half of the update-collection loop body (`onUpds`): a
`minute_in` update is queued only when the snapshot field is null. -/
def subOnUpds (byPlayer : List (String × ByPlayerEntry)) (e : EventRow) : List LineupUpd :=
  match e.sub_on_ksi_player_id with
  | some onId =>
    match List.lookup onId byPlayer with
    | some entry =>
      if entry.minute_in = none
      then [{ id := entry.id, minute_in := some e.minute, minute_out := none }] else []
    | none => []
  | none => []

/-- The `offId` half of the update-collection loop body (`offUpds`): a
`minute_out` update is queued only when the snapshot field is null. -/
def subOffUpds (byPlayer : List (String × ByPlayerEntry)) (e : EventRow) : List LineupUpd :=
  match e.sub_off_ksi_player_id with
  | some offId =>
    match List.lookup offId byPlayer with
    | some entry =>
      if entry.minute_out = none
      then [{ id := entry.id, minute_in := none, minute_out := some e.minute }] else []
    | none => []
  | none => []

/-- The update-collection loop over the parsed events: substitutions only. -/
def collectSubUpdates (byPlayer : List (String × ByPlayerEntry)) : List EventRow → List LineupUpd
  | [] => []
  | e :: rest =>
    if e.event_type = "substitution" then
      subOnUpds byPlayer e ++ (subOffUpds byPlayer e ++ collectSubUpdates byPlayer rest)
    else collectSubUpdates byPlayer rest

/-- The database `update(...).eq("id", u.id)` applied to one stored row:
only the column present in the update object is written. -/
def applyUpdRow (u : LineupUpd) (r : StoredLineup) : StoredLineup :=
  if r.id = u.id then
    { r with
      minute_in := match u.minute_in with | some v => some v | none => r.minute_in
      minute_out := match u.minute_out with | some v => some v | none => r.minute_out }
  else r

/-- `applySubMinutesToLineups(matchId, events)` as a transformation of the
stored rows: collect the updates from the pre-state snapshot, then apply
them in order. -/
def applySubMinutesToLineups (lineups : List StoredLineup) (events : List EventRow) : List StoredLineup :=
  (collectSubUpdates (byPlayerMap lineups) events).foldl
    (fun rows u => rows.map (applyUpdRow u)) lineups

/-! ## Match discovery crawl (`scripts/discover-matches.ts`) -/

/-- `extractMatchIdFromHref`: the regex `[?&]id=(\d+)`. -/
def extractMatchIdFromHref (href : String) : Option String :=
  getParamId href "id"

/-- The order-preserving first-occurrence dedup of
`Array.from(new Set(ids))`. -/
def dedupKeepFirstAux (seen : List String) : List String → List String
  | [] => []
  | x :: rest =>
    if seen.contains x then dedupKeepFirstAux seen rest
    else x :: dedupKeepFirstAux (x :: seen) rest

/-- `extractMatchIdsFromDoc`: extract an id from every
`a[href*='leikur?id=']` href, drop failures, de-duplicate keeping first
occurrences. -/
def extractMatchIdsFromDoc (hrefs : List String) : List String :=
  dedupKeepFirstAux [] (hrefs.filterMap extractMatchIdFromHref)

/-- The inner accumulation of one crawl page: `seen.add` / `all.push` /
`gained++` for every id not yet seen.  Returns (seen, all, gained). -/
def addIds : List String → List String → Nat → List String → List String × List String × Nat
  | seen, all, gained, [] => (seen, all, gained)
  | seen, all, gained, id :: rest =>
    if seen.contains id then addIds seen all gained rest
    else addIds (id :: seen) (all ++ [id]) (gained + 1) rest

/-- The crawl loop of `main` in `discover-matches.ts`, pages abstracted as
the hrefs each listing page yields.  `q` counts pages already crawled (the
next fetch is page `q + 1`), `fuel` is the remaining page budget; the result
carries the accumulated ids and the number of pages fetched.  The loop
breaks as soon as a page gains nothing new. -/
def crawlGo (pages : Nat → List String) : Nat → Nat → List String → List String → List String × Nat
  | 0, _, _, all => (all, 0)
  | fuel + 1, q, seen, all =>
    let ids := extractMatchIdsFromDoc (pages (q + 1))
    let step := addIds seen all 0 ids
    if step.2.2 = 0 then (step.2.1, 1)
    else
      let nxt := crawlGo pages fuel (q + 1) step.1 step.2.1
      (nxt.1, nxt.2 + 1)

/-- `discoverMatchIds`: the crawl for one competition, from page 1, with the
`maxPages` hard cap. -/
def discoverMatchIds (pages : Nat → List String) (maxPages : Nat) : List String × Nat :=
  crawlGo pages maxPages 0 [] []

/-- The reference accumulation: the (seen, all) state after crawling pages
`1..k` unconditionally. -/
def accPages (pages : Nat → List String) : Nat → List String × List String
  | 0 => ([], [])
  | k + 1 =>
    let st := accPages pages k
    let step := addIds st.1 st.2 0 (extractMatchIdsFromDoc (pages (k + 1)))
    (step.1, step.2.1)

/-- How many new identifiers page `q + 1` contributes after pages `1..q`. -/
def gainAfter (pages : Nat → List String) (q : Nat) : Nat :=
  (addIds (accPages pages q).1 (accPages pages q).2 0 (extractMatchIdsFromDoc (pages (q + 1)))).2.2

/-! ## Standings column inference (`scripts/fetch-league-tables.ts`) -/

/-- The NFD-decomposition-plus-accent-strip step of `foldIcelandic` for the
precomposed Latin letters of the Icelandic alphabet (the letters ð/þ/æ have
no decomposition and are handled by the substitution table instead). -/
def stripAccent (ch : Char) : Char :=
  if ch = 'á' then 'a' else if ch = 'é' then 'e' else if ch = 'í' then 'i'
  else if ch = 'ó' then 'o' else if ch = 'ú' then 'u' else if ch = 'ý' then 'y'
  else if ch = 'ö' then 'o'
  else if ch = 'Á' then 'A' else if ch = 'É' then 'E' else if ch = 'Í' then 'I'
  else if ch = 'Ó' then 'O' else if ch = 'Ú' then 'U' else if ch = 'Ý' then 'Y'
  else if ch = 'Ö' then 'O'
  else ch

/-- The per-character effect of `foldIcelandic`: strip accents, then apply
the fixed ð/þ/æ substitution table (the ö line of the source is already
covered by the NFD step). -/
def foldChar (ch : Char) : List Char :=
  if ch = 'ð' || ch = 'Ð' then ['d']
  else if ch = 'þ' || ch = 'Þ' then ['t', 'h']
  else if ch = 'æ' || ch = 'Æ' then ['a', 'e']
  else [stripAccent ch]

/-- `foldIcelandic(s)`. -/
def foldIcelandic (s : String) : String :=
  String.mk ((s.toList.map foldChar).flatten)

/-- `normHeader(s)`: fold, lower-case, collapse whitespace, trim. -/
def normHeader (s : String) : String :=
  clean (lowerStr (foldIcelandic s))

/-- The team-column vocabulary test of `getStandingsColumnMap`. -/
def isTeamHeader (h : String) : Bool :=
  h == "lid" || strContains h "lid" || h == "felag" || strContains h "felag" ||
  h == "team" || strContains h "team"

/-- The standings layout variant. -/
inductive StandingsVariant
  | ksi_new
  | classic
deriving Repr, DecidableEq

/-- `ColMap` of `fetch-league-tables.ts` (JS `-1`/`null` sentinels both
rendered as `none`). -/
structure ColMap where
  variant : StandingsVariant
  positionIdx : Option Nat
  teamIdx : Nat
  playedIdx : Option Nat
  winsIdx : Option Nat
  drawsIdx : Option Nat
  lossesIdx : Option Nat
  goalsIdx : Option Nat
  gdIdx : Option Nat
  pointsIdx : Option Nat
deriving Repr, DecidableEq

/-- The positions of the headers equal to "s" (`sIdxs`). -/
def sIndexes (H : List String) : List Nat :=
  H.enum.filterMap (fun p => if p.2 == "s" then some p.1 else none)

/-- The guard of the new-layout branch:
`uIdx !== -1 && jIdx !== -1 && tIdx !== -1 && mIdx !== -1 && sIdxs.length >= 2`. -/
def ksiNewCond (H : List String) : Bool :=
  (H.findIdx? (fun h => h == "u")).isSome && (H.findIdx? (fun h => h == "j")).isSome &&
  (H.findIdx? (fun h => h == "t")).isSome && (H.findIdx? (fun h => h == "m")).isSome &&
  decide (2 ≤ (sIndexes H).length)

/-- The classic-layout per-field lookups, bundled. -/
def classicIdxs (H : List String) : ColMap :=
  { variant := StandingsVariant.classic
    positionIdx := H.findIdx? (fun h => h == "#" || strContains h "saeti" || strContains h "pos" || strContains h "nr")
    teamIdx := 0
    playedIdx := H.findIdx? (fun h => h == "l" || strContains h "leikir" || strContains h "played")
    winsIdx := H.findIdx? (fun h => h == "s" || strContains h "sigr" || strContains h "wins" || h == "w")
    drawsIdx := H.findIdx? (fun h => h == "j" || strContains h "jafn" || strContains h "draw" || h == "d")
    lossesIdx := H.findIdx? (fun h => h == "t" || strContains h "tap" || strContains h "loss")
    goalsIdx := H.findIdx? (fun h => strContains h "mork" || strContains h "goals" || strContains h "gf-ga" || h == "mk")
    gdIdx := H.findIdx? (fun h => strContains h "markat" || strContains h "diff" || strContains h "gd" || h == "md")
    pointsIdx := H.findIdx? (fun h => h == "st" || strContains h "stig" || strContains h "pts" || strContains h "points") }

/-- `hasSomeUseful`: how many of the five core classic fields resolved. -/
def classicCoreCount (H : List String) : Nat :=
  (([(classicIdxs H).playedIdx, (classicIdxs H).winsIdx, (classicIdxs H).drawsIdx,
     (classicIdxs H).lossesIdx, (classicIdxs H).pointsIdx]).filter Option.isSome).length

/-- `getStandingsColumnMap(headers)`: normalize, require a team column, try
the new KSI layout, fall back to the classic layout gated on at least two
core fields. -/
def getStandingsColumnMap (headers : List String) : Option ColMap :=
  let H := headers.map normHeader
  match H.findIdx? isTeamHeader with
  | none => none
  | some teamIdx =>
    if ksiNewCond H then
      let sIdxs := sIndexes H
      some
        { variant := StandingsVariant.ksi_new
          positionIdx := none
          teamIdx := teamIdx
          playedIdx := some ((sIdxs.find? (fun i => decide (teamIdx < i))).getD (sIdxs.headD 0))
          winsIdx := H.findIdx? (fun h => h == "u")
          drawsIdx := H.findIdx? (fun h => h == "j")
          lossesIdx := H.findIdx? (fun h => h == "t")
          goalsIdx := H.findIdx? (fun h => h == "m")
          gdIdx := H.findIdx? (fun h => h == "+/-" || strContains h "+/-" || strContains h "diff" || strContains h "gd")
          pointsIdx := some (sIdxs.getLastD 0) }
    else
      if 2 ≤ classicCoreCount H then some { classicIdxs H with teamIdx := teamIdx }
      else none

/-! ## Lemmas about the lineup extractor -/

theorem buildLineupRows_map_idx (mid : String) (tid : Option String) (sq : Squad) (sd : Side) :
    ∀ (s : Nat) (items : List LineupItem),
      (buildLineupRows mid tid sq sd s items).map (fun r => r.lineup_idx) =
        List.range' s items.length
  | _, [] => rfl
  | s, _ :: rest => by
    simp [buildLineupRows, mkLineupRow, List.range'_succ, buildLineupRows_map_idx mid tid sq sd (s + 1) rest]

theorem buildLineupRows_length (mid : String) (tid : Option String) (sq : Squad) (sd : Side) :
    ∀ (s : Nat) (items : List LineupItem),
      (buildLineupRows mid tid sq sd s items).length = items.length
  | _, [] => rfl
  | s, _ :: rest => by
    simp [buildLineupRows, buildLineupRows_length mid tid sq sd (s + 1) rest]

theorem range'_concat (s m n : Nat) :
    List.range' s m ++ List.range' (s + m) n = List.range' s (m + n) := by
  have h := List.range'_append_1 s m n
  rw [Nat.add_comm n m] at h
  exact h

theorem parseLineupList_map_idx (mid : String) (tid : Option String) (sq : Squad) (sd : Side)
    (children : List LineupItem) (s : Nat) :
    (parseLineupList mid tid sq sd children s).map (fun r => r.lineup_idx) =
      List.range' s (parseLineupList mid tid sq sd children s).length := by
  unfold parseLineupList
  rw [buildLineupRows_map_idx, buildLineupRows_length]

theorem startingBlock_map_idx (g : LineupGridRec) (mid : String)
    (homeTeamId awayTeamId : Option String) :
    (startingBlock g mid homeTeamId awayTeamId).map (fun r => r.lineup_idx) =
      List.range' 0 (startingBlock g mid homeTeamId awayTeamId).length := by
  unfold startingBlock
  cases findLineupListsForLabel "Byrjunarlið" g.kids with
  | none => rfl
  | some lists =>
    simp only [List.map_append, List.length_append, parseLineupList_map_idx]
    simpa using range'_concat 0 _ _

theorem benchBlock_map_idx (g : LineupGridRec) (mid : String)
    (homeTeamId awayTeamId : Option String) (s : Nat) :
    (benchBlock g mid homeTeamId awayTeamId s).map (fun r => r.lineup_idx) =
      List.range' s (benchBlock g mid homeTeamId awayTeamId s).length := by
  unfold benchBlock
  cases findLineupListsForLabel "Varamenn" g.kids with
  | none => rfl
  | some lists =>
    simp only [List.map_append, List.length_append, parseLineupList_map_idx]
    exact range'_concat s _ _

theorem parseLineups_map_idx (grids : List LineupGridRec) (mid : String)
    (homeTeamId awayTeamId : Option String) :
    (parseLineupsFromReportHtml grids mid homeTeamId awayTeamId).map (fun r => r.lineup_idx) =
      List.range (parseLineupsFromReportHtml grids mid homeTeamId awayTeamId).length := by
  unfold parseLineupsFromReportHtml
  cases findLineupGrid grids with
  | none => rfl
  | some g =>
    simp only [List.map_append, List.length_append, List.range_eq_range',
      startingBlock_map_idx, benchBlock_map_idx]
    simpa using range'_concat 0 _ _

/-- C1: For every match-report document, the lineup extractor assigns slot
indices from a single running counter across home-XI, away-XI, home-bench,
away-bench, so the produced `lineup_idx` values are exactly `0..n-1`
(no duplicates, no gaps), and hence the (side, squad, slot index) triples
are pairwise distinct and equal in count to the extracted rows. -/
theorem lineup_slot_indices_exact (grids : List LineupGridRec) (mid : String)
    (homeTeamId awayTeamId : Option String) :
    (parseLineupsFromReportHtml grids mid homeTeamId awayTeamId).map (fun r => r.lineup_idx) =
      List.range (parseLineupsFromReportHtml grids mid homeTeamId awayTeamId).length ∧
    ((parseLineupsFromReportHtml grids mid homeTeamId awayTeamId).map
        (fun r => (r.side, r.squad, r.lineup_idx))).Nodup ∧
    ((parseLineupsFromReportHtml grids mid homeTeamId awayTeamId).map
        (fun r => (r.side, r.squad, r.lineup_idx))).length =
      (parseLineupsFromReportHtml grids mid homeTeamId awayTeamId).length := by
  refine ⟨parseLineups_map_idx grids mid homeTeamId awayTeamId, ?_, List.length_map _ _⟩
  have h := parseLineups_map_idx grids mid homeTeamId awayTeamId
  have hmap : ((parseLineupsFromReportHtml grids mid homeTeamId awayTeamId).map
      (fun r => (r.side, r.squad, r.lineup_idx))).map (fun t => t.2.2) =
      List.range (parseLineupsFromReportHtml grids mid homeTeamId awayTeamId).length := by
    rw [List.map_map]
    exact h
  exact List.Nodup.of_map _ (hmap ▸ List.nodup_range _)

/-! ## Lemmas about the lineup player names (C10) -/

theorem jsOrName_ne_empty (x y : String) :
    (orOptStr (strToOpt x) (orOptStr (strToOpt y) (some "\u2014"))).getD "\u2014" ≠ "" := by
  unfold orOptStr strToOpt
  by_cases hx : x = "" <;> by_cases hy : y = "" <;> simp [hx, hy]

theorem mkLineupRow_name_ne_empty (mid : String) (tid : Option String) (sq : Squad) (sd : Side)
    (idx : Nat) (el : LineupItem) :
    (mkLineupRow mid tid sq sd idx el).player_name ≠ "" := by
  simp only [mkLineupRow]
  exact jsOrName_ne_empty _ _

theorem buildLineupRows_name_ne_empty (mid : String) (tid : Option String) (sq : Squad) (sd : Side) :
    ∀ (s : Nat) (items : List LineupItem) (r : LineupRow),
      r ∈ buildLineupRows mid tid sq sd s items → r.player_name ≠ ""
  | _, [], _, h => absurd h (List.not_mem_nil _)
  | s, el :: rest, r, h => by
    rcases List.mem_cons.mp h with h | h
    · exact h ▸ mkLineupRow_name_ne_empty mid tid sq sd s el
    · exact buildLineupRows_name_ne_empty mid tid sq sd (s + 1) rest r h

/-- C10: Every lineup record produced by the lineup extractor has a
non-empty `player_name`: when neither a goalkeeper-marked span, nor the
longest span, nor the flattened row text yields a usable name after
stripping markers, the name falls back to the placeholder, so the empty
string never occurs. -/
theorem startingBlock_name_ne_empty (g : LineupGridRec) (mid : String)
    (homeTeamId awayTeamId : Option String) (r : LineupRow)
    (hr : r ∈ startingBlock g mid homeTeamId awayTeamId) : r.player_name ≠ "" := by
  revert hr
  unfold startingBlock
  cases findLineupListsForLabel "Byrjunarlið" g.kids with
  | none => exact fun h => absurd h (List.not_mem_nil _)
  | some lists =>
    intro hr
    rcases List.mem_append.mp hr with h | h
    · exact buildLineupRows_name_ne_empty _ _ _ _ _ _ r h
    · exact buildLineupRows_name_ne_empty _ _ _ _ _ _ r h

theorem benchBlock_name_ne_empty (g : LineupGridRec) (mid : String)
    (homeTeamId awayTeamId : Option String) (s : Nat) (r : LineupRow)
    (hr : r ∈ benchBlock g mid homeTeamId awayTeamId s) : r.player_name ≠ "" := by
  revert hr
  unfold benchBlock
  cases findLineupListsForLabel "Varamenn" g.kids with
  | none => exact fun h => absurd h (List.not_mem_nil _)
  | some lists =>
    intro hr
    rcases List.mem_append.mp hr with h | h
    · exact buildLineupRows_name_ne_empty _ _ _ _ _ _ r h
    · exact buildLineupRows_name_ne_empty _ _ _ _ _ _ r h

theorem lineup_player_name_nonempty (grids : List LineupGridRec) (mid : String)
    (homeTeamId awayTeamId : Option String) (r : LineupRow)
    (hr : r ∈ parseLineupsFromReportHtml grids mid homeTeamId awayTeamId) :
    r.player_name ≠ "" := by
  revert hr
  unfold parseLineupsFromReportHtml
  cases findLineupGrid grids with
  | none => exact fun h => absurd h (List.not_mem_nil _)
  | some g =>
    intro hr
    rcases List.mem_append.mp hr with h | h
    · exact startingBlock_name_ne_empty _ _ _ _ r h
    · exact benchBlock_name_ne_empty _ _ _ _ _ r h

/-- A concrete row item for the sample report document. -/
def sampleItem : LineupItem where
  isA := true
  isDiv := false
  hasGroupClass := true
  href := "a?id=5"
  shirtSpanText := ""
  spanTexts := ["Alex"]
  flatText := "Alex"

/-- A header child of the sample lineup grid. -/
def sampleHeader : LineupNode where
  isDiv := true
  hasSideImg := true
  firstSpanText := "Byrjunarlið"
  hasPlayerLink := false
  children := []

/-- A list-container child of the sample lineup grid. -/
def sampleList (items : List LineupItem) : LineupNode where
  isDiv := true
  hasSideImg := false
  firstSpanText := ""
  hasPlayerLink := true
  children := items

/-- The sample lineup grid: header pair followed by a one-row home list and
an empty away list. -/
def sampleGrid : LineupGridRec where
  imgAlts := ["Heimamenn", "Gestir"]
  spanTexts := ["Byrjunarlið"]
  kids := [sampleHeader, sampleHeader, sampleList [sampleItem], sampleList []]

/-- Witness for C10 at the concrete one-row report document. -/
theorem lineup_player_name_nonempty_witness :
    ∃ r ∈ parseLineupsFromReportHtml [sampleGrid] "42" (some "1") (some "2"), r.player_name ≠ "" := by
  refine ⟨(parseLineupsFromReportHtml [sampleGrid] "42" (some "1") (some "2")).headD
    (mkLineupRow "42" none Squad.xi Side.home 0 sampleItem), by decide, ?_⟩
  exact lineup_player_name_nonempty [sampleGrid] "42" (some "1") (some "2") _ (by decide)

/-! ## Structural miss (C7) -/

/-- C7: For every input document in which the structural locator finds no
matching region, the extractor returns the empty list (and, being a total
function, cannot throw): a structural miss is zero extracted records. -/
theorem structural_miss_yields_empty (grids : List LineupGridRec) (mid : String)
    (homeTeamId awayTeamId : Option String) (page : EventsPage) (mid2 : String)
    (h2 a2 : Option String) (pmap : List (String × String))
    (hg : findLineupGrid grids = none) (he : findAtburdirGrid page = none) :
    parseLineupsFromReportHtml grids mid homeTeamId awayTeamId = [] ∧
    parseOverviewEventsFromHtml page mid2 h2 a2 pmap = [] ∧
    parseOverviewEventsFromHtmlU19 page mid2 h2 a2 pmap = [] := by
  refine ⟨?_, ?_, ?_⟩
  · unfold parseLineupsFromReportHtml
    rw [hg]
  · unfold parseOverviewEventsFromHtml
    rw [he]
  · unfold parseOverviewEventsFromHtmlU19
    rw [he]

/-- Witness for C7 at the empty document. -/
theorem structural_miss_yields_empty_witness :
    parseLineupsFromReportHtml [] "1" none none = [] ∧
    parseOverviewEventsFromHtml { spanTexts := [], divsAfterLabel := [], allDivs := [] } "1" none none [] = [] ∧
    parseOverviewEventsFromHtmlU19 { spanTexts := [], divsAfterLabel := [], allDivs := [] } "1" none none [] = [] :=
  structural_miss_yields_empty [] "1" none none
    { spanTexts := [], divsAfterLabel := [], allDivs := [] } "1" none none []
    (by decide) (by decide)

/-! ## Standings column map (C5, C4) -/

/-- C5: The spec's example header row, together with a second "S" column
(shown in both observed placements: directly after the team column as on
the live site, and appended at the end), maps to the new-layout variant
with wins from U, draws from J, losses from T, goals from M, goal
difference from the plus-minus column, and the played/points columns disambiguated as the
first "S" after the team column and the last "S". -/
theorem new_layout_example_mapping :
    getStandingsColumnMap ["Lið", "S", "U", "J", "T", "M", "+/-", "S", "SÍÐUSTU 5", "Næsti"] =
      some { variant := StandingsVariant.ksi_new, positionIdx := none, teamIdx := 0,
             playedIdx := some 1, winsIdx := some 2, drawsIdx := some 3, lossesIdx := some 4,
             goalsIdx := some 5, gdIdx := some 6, pointsIdx := some 7 } ∧
    getStandingsColumnMap ["Lið", "U", "J", "T", "M", "+/-", "S", "SÍÐUSTU 5", "Næsti", "S"] =
      some { variant := StandingsVariant.ksi_new, positionIdx := none, teamIdx := 0,
             playedIdx := some 6, winsIdx := some 1, drawsIdx := some 2, lossesIdx := some 3,
             goalsIdx := some 4, gdIdx := some 5, pointsIdx := some 9 } := by
  constructor <;> decide

/-- C4: The column-map inference returns null — never a partially populated
map — when no header matches the team-name vocabulary; and when the
new-layout recognition does not apply, the classic fallback returns null
unless at least 2 of the 5 core numeric fields resolve. -/
theorem column_map_rejection (headers : List String)
    (hteam : ∀ h ∈ headers, isTeamHeader (normHeader h) = false)
    (headers2 : List String)
    (hnew : ksiNewCond (headers2.map normHeader) = false)
    (hcore : classicCoreCount (headers2.map normHeader) < 2) :
    getStandingsColumnMap headers = none ∧ getStandingsColumnMap headers2 = none := by
  constructor
  · have hnone : List.findIdx? isTeamHeader (headers.map normHeader) = none := by
      rw [List.findIdx?_eq_none_iff]
      intro x hx
      rcases List.mem_map.mp hx with ⟨h, hh, rfl⟩
      exact hteam h hh
    simp only [getStandingsColumnMap, hnone]
  · simp only [getStandingsColumnMap]
    cases ht : List.findIdx? isTeamHeader (headers2.map normHeader) with
    | none => rfl
    | some teamIdx =>
      rw [hnew]
      simp only [Bool.false_eq_true, if_false]
      rw [if_neg (by omega)]

/-- Witness for C4 at concrete header rows. -/
theorem column_map_rejection_witness :
    getStandingsColumnMap ["Nr", "Stig"] = none ∧ getStandingsColumnMap ["Lið", "Markatala"] = none :=
  column_map_rejection ["Nr", "Stig"] (by decide) ["Lið", "Markatala"] (by decide) (by decide)

/-! ## Event ordering (C2) -/

theorem assignIdxFrom_length : ∀ (i : Nat) (l : List EventRow), (assignIdxFrom i l).length = l.length
  | _, [] => rfl
  | i, _ :: rest => by simp [assignIdxFrom, assignIdxFrom_length (i + 1) rest]

theorem assignIdxFrom_map_idx : ∀ (i : Nat) (l : List EventRow),
    (assignIdxFrom i l).map (fun e => e.event_idx) = List.range' i l.length
  | _, [] => rfl
  | i, _ :: rest => by
    simp [assignIdxFrom, List.range'_succ, assignIdxFrom_map_idx (i + 1) rest]

theorem mem_assignIdxFrom : ∀ (i : Nat) (l : List EventRow) (b : EventRow),
    b ∈ assignIdxFrom i l → ∃ e ∈ l, ∃ j, b = { e with event_idx := j }
  | _, [], b, h => absurd h (List.not_mem_nil b)
  | i, e :: rest, b, h => by
    rcases List.mem_cons.mp h with rfl | h
    · exact ⟨e, List.mem_cons_self e rest, i, rfl⟩
    · rcases mem_assignIdxFrom (i + 1) rest b h with ⟨e2, he2, j, rfl⟩
      exact ⟨e2, List.mem_cons_of_mem e he2, j, rfl⟩

theorem pairwise_assignIdxFrom : ∀ (i : Nat) (l : List EventRow),
    List.Pairwise evLe l → List.Pairwise evLe (assignIdxFrom i l)
  | _, [], _ => List.Pairwise.nil
  | i, e :: rest, h => by
    rcases List.pairwise_cons.mp h with ⟨hhead, htail⟩
    refine List.pairwise_cons.mpr ⟨?_, pairwise_assignIdxFrom (i + 1) rest htail⟩
    intro b hb
    rcases mem_assignIdxFrom (i + 1) rest b hb with ⟨e2, he2, j, rfl⟩
    exact hhead e2 he2

/-- C2 (amended): the extractor's output is sorted by the key
(minute, stoppage with null as 0, team id, event type) and `event_idx` is
exactly the position `0..n-1` in that order. -/
theorem events_sorted_and_indexed (page : EventsPage) (mid : String)
    (homeTeamId awayTeamId : Option String) (pmap : List (String × String)) :
    List.Sorted evLe (parseOverviewEventsFromHtml page mid homeTeamId awayTeamId pmap) ∧
    (parseOverviewEventsFromHtml page mid homeTeamId awayTeamId pmap).map (fun e => e.event_idx) =
      List.range (parseOverviewEventsFromHtml page mid homeTeamId awayTeamId pmap).length := by
  unfold parseOverviewEventsFromHtml
  cases findAtburdirGrid page with
  | none => exact ⟨List.sorted_nil, rfl⟩
  | some g =>
    constructor
    · exact pairwise_assignIdxFrom 0 _ (List.sorted_insertionSort evLe _)
    · rw [assignIdxFrom_map_idx, assignIdxFrom_length, List.range_eq_range']

/-- A minimal event node: minute 10, one player link with the given id, no
icons, in a non-reversed row. -/
def plainGoallessNode (pid : String) : EventNode where
  row := some { cls := "col-span-3", text := "10", stopSpanText := none }
  playerLinks := [("a?id=" ++ pid, "P" ++ pid)]
  hasYellowMarker := false
  svgHtmls := []
  greenLink := none
  redLink := none

/-- An events page holding the given nodes in one located grid. -/
def pageOfEvents (evs : List EventNode) : EventsPage where
  spanTexts := []
  divsAfterLabel := []
  allDivs := [{ cls := "grid grid-cols-[1fr_auto_1fr]", events := evs }]

/-- Counterexample to C2's determinism consequence: the same events region
with the DOM iteration order of two equal-minute (equal-sort-key, distinct
player) events swapped yields a different sequence-index assignment — the
post-parse sort is only by (minute, stoppage, team, type), so records that
tie on that key keep their DOM order under the stable sort. -/
theorem events_reorder_changes_assignment :
    (parseOverviewEventsFromHtml (pageOfEvents [plainGoallessNode "7", plainGoallessNode "8"])
        "m" (some "1") (some "2") []).map (fun e => (e.ksi_player_id, e.event_idx)) =
      [(some "7", 0), (some "8", 1)] ∧
    (parseOverviewEventsFromHtml (pageOfEvents [plainGoallessNode "8", plainGoallessNode "7"])
        "m" (some "1") (some "2") []).map (fun e => (e.ksi_player_id, e.event_idx)) =
      [(some "8", 0), (some "7", 1)] ∧
    (parseOverviewEventsFromHtml (pageOfEvents [plainGoallessNode "7", plainGoallessNode "8"])
        "m" (some "1") (some "2") []).map (fun e => (e.ksi_player_id, e.event_idx)) ≠
      (parseOverviewEventsFromHtml (pageOfEvents [plainGoallessNode "8", plainGoallessNode "7"])
        "m" (some "1") (some "2") []).map (fun e => (e.ksi_player_id, e.event_idx)) := by
  refine ⟨by decide, by decide, by decide⟩

/-! ## Reversed-row conventions (C9) -/

/-- A node sitting in a reversed-layout row, with no player links. -/
def reversedRowNode : EventNode where
  row := some { cls := "col-span-3 flex flex-row-reverse", text := "15", stopSpanText := none }
  playerLinks := []
  hasYellowMarker := false
  svgHtmls := []
  greenLink := none
  redLink := none

/-- Counterexample to C9: with identical inputs (home "10", away "20",
empty player map) the two extractor variants attribute a reversed-layout
row to opposite teams — the club-adults variant to the home team, the U-19
variant to the away team. -/
theorem reversed_row_conventions_differ :
    (parseOverviewEventsFromHtml (pageOfEvents [reversedRowNode]) "m" (some "10") (some "20") []).map
        (fun e => e.ksi_team_id) = [some "10"] ∧
    (parseOverviewEventsFromHtmlU19 (pageOfEvents [reversedRowNode]) "m" (some "10") (some "20") []).map
        (fun e => e.ksi_team_id) = [some "20"] ∧
    parseOverviewEventsFromHtml (pageOfEvents [reversedRowNode]) "m" (some "10") (some "20") [] ≠
      parseOverviewEventsFromHtmlU19 (pageOfEvents [reversedRowNode]) "m" (some "10") (some "20") [] := by
  refine ⟨by decide, by decide, by decide⟩

/-- C9 (amended): the two variants implement opposite reversed-row
conventions; on every document the U-19 extractor's output equals the
club-adults extractor's output with the home and away team ids swapped. -/
theorem u19_events_swap_equiv (page : EventsPage) (mid : String)
    (homeTeamId awayTeamId : Option String) (pmap : List (String × String)) :
    parseOverviewEventsFromHtmlU19 page mid homeTeamId awayTeamId pmap =
      parseOverviewEventsFromHtml page mid awayTeamId homeTeamId pmap := by
  unfold parseOverviewEventsFromHtmlU19 parseOverviewEventsFromHtml
  cases findAtburdirGrid page with
  | none => rfl
  | some g =>
    have hconv : (fun cls => u19ColumnTeam cls homeTeamId awayTeamId) =
        (fun cls => mainColumnTeam cls awayTeamId homeTeamId) := by
      funext cls
      unfold u19ColumnTeam mainColumnTeam
      rfl
    rw [hconv]

/-! ## Minuteless events are discarded (C6) -/

/-- The minute parsed for an event node, if any. -/
def minuteOfNode (ev : EventNode) : Option Nat :=
  match ev.row with
  | some r => (parseMinuteFromRow r).1
  | none => none

/-- Drop the nodes without a parseable minute from a grid. -/
def filterMinuteGrid (g : EventsGridRec) : EventsGridRec :=
  { g with events := g.events.filter (fun ev => (minuteOfNode ev).isSome) }

/-- Drop the nodes without a parseable minute everywhere on the page. -/
def filterMinutePage (p : EventsPage) : EventsPage :=
  { p with divsAfterLabel := p.divsAfterLabel.map filterMinuteGrid,
           allDivs := p.allDivs.map filterMinuteGrid }

/-- The event nodes of the located region. -/
def eventNodesOf (p : EventsPage) : List EventNode :=
  match findAtburdirGrid p with
  | some g => g.events
  | none => []

theorem gridClsOk_filterMinuteGrid (g : EventsGridRec) :
    gridClsOk (filterMinuteGrid g) = gridClsOk g := rfl

theorem findAtburdirGrid_filterMinutePage (p : EventsPage) :
    findAtburdirGrid (filterMinutePage p) = (findAtburdirGrid p).map filterMinuteGrid := by
  unfold findAtburdirGrid
  have hfa : (filterMinutePage p).allDivs.filter gridClsOk =
      (p.allDivs.filter gridClsOk).map filterMinuteGrid := by
    show (p.allDivs.map filterMinuteGrid).filter gridClsOk = _
    rw [List.filter_map]
    rfl
  have hfd : (filterMinutePage p).divsAfterLabel.filter gridClsOk =
      (p.divsAfterLabel.filter gridClsOk).map filterMinuteGrid := by
    show (p.divsAfterLabel.map filterMinuteGrid).filter gridClsOk = _
    rw [List.filter_map]
    rfl
  have hspan : (filterMinutePage p).spanTexts = p.spanTexts := rfl
  rw [hfa, hfd, hspan]
  by_cases hl : (p.spanTexts.any fun s => lowerStr (clean s) == "atburðir") = true
  · rw [if_pos hl, if_pos hl, List.head?_map]
    cases (p.divsAfterLabel.filter gridClsOk).head? with
    | none => simp [List.head?_map]
    | some g => rfl
  · rw [if_neg hl, if_neg hl, List.head?_map]

theorem eventToRow_none_of_no_minute (mid : String) (cof : String → Option String)
    (pmap : List (String × String)) (ev : EventNode) (h : minuteOfNode ev = none) :
    eventToRow mid cof pmap ev = none := by
  cases hr : ev.row with
  | none => simp only [eventToRow, hr]
  | some r =>
    have hm : (parseMinuteFromRow r).1 = none := by
      unfold minuteOfNode at h
      rw [hr] at h
      exact h
    simp only [eventToRow, hr, hm]

theorem eventToRow_minute (mid : String) (cof : String → Option String)
    (pmap : List (String × String)) (ev : EventNode) (kr : String × EventRow)
    (h : eventToRow mid cof pmap ev = some kr) : minuteOfNode ev = some kr.2.minute := by
  cases hr : ev.row with
  | none =>
    simp only [eventToRow, hr] at h
    exact Option.noConfusion h
  | some r =>
    cases hm : (parseMinuteFromRow r).1 with
    | none =>
      simp only [eventToRow, hr, hm] at h
      exact Option.noConfusion h
    | some m =>
      simp only [eventToRow, hr, hm] at h
      obtain rfl := (Option.some.inj h).symm
      simp only [minuteOfNode, hr]
      exact hm

theorem processEvents_filter_minutes (mid : String) (cof : String → Option String)
    (pmap : List (String × String)) :
    ∀ (nodes : List EventNode) (seen : List String),
      processEvents mid cof pmap (nodes.filter (fun ev => (minuteOfNode ev).isSome)) seen =
        processEvents mid cof pmap nodes seen := by
  intro nodes
  induction nodes with
  | nil => intro seen; rfl
  | cons ev rest ih =>
    intro seen
    cases hm : minuteOfNode ev with
    | none =>
      have hskip : eventToRow mid cof pmap ev = none :=
        eventToRow_none_of_no_minute mid cof pmap ev hm
      have hfil : (ev :: rest).filter (fun n => (minuteOfNode n).isSome) =
          rest.filter (fun n => (minuteOfNode n).isSome) := by
        simp [List.filter_cons, hm]
      rw [hfil, ih seen]
      conv_rhs => rw [processEvents]
      rw [hskip]
    | some m =>
      have hfil : (ev :: rest).filter (fun n => (minuteOfNode n).isSome) =
          ev :: rest.filter (fun n => (minuteOfNode n).isSome) := by
        simp [List.filter_cons, hm]
      rw [hfil]
      cases hrow : eventToRow mid cof pmap ev with
      | none =>
        simp only [processEvents, hrow]
        exact ih seen
      | some kr =>
        simp only [processEvents, hrow]
        by_cases hseen : seen.contains kr.1 = true
        · rw [if_pos hseen, if_pos hseen]
          exact ih seen
        · rw [if_neg hseen, if_neg hseen, ih (kr.1 :: seen)]

theorem processEvents_minutes (mid : String) (cof : String → Option String)
    (pmap : List (String × String)) :
    ∀ (nodes : List EventNode) (seen : List String) (e : EventRow),
      e ∈ processEvents mid cof pmap nodes seen →
        ∃ ev ∈ nodes, minuteOfNode ev = some e.minute := by
  intro nodes
  induction nodes with
  | nil => intro seen e he; exact absurd he (List.not_mem_nil e)
  | cons ev rest ih =>
    intro seen e he
    cases hrow : eventToRow mid cof pmap ev with
    | none =>
      simp only [processEvents, hrow] at he
      rcases ih seen e he with ⟨ev2, hev2, hm⟩
      exact ⟨ev2, List.mem_cons_of_mem ev hev2, hm⟩
    | some kr =>
      simp only [processEvents, hrow] at he
      by_cases hseen : seen.contains kr.1 = true
      · rw [if_pos hseen] at he
        rcases ih seen e he with ⟨ev2, hev2, hm⟩
        exact ⟨ev2, List.mem_cons_of_mem ev hev2, hm⟩
      · rw [if_neg hseen] at he
        rcases List.mem_cons.mp he with rfl | he
        · exact ⟨ev, List.mem_cons_self ev rest, eventToRow_minute mid cof pmap ev kr hrow⟩
        · rcases ih (kr.1 :: seen) e he with ⟨ev2, hev2, hm⟩
          exact ⟨ev2, List.mem_cons_of_mem ev hev2, hm⟩

/-- C6: an event node whose row yields no parseable minute produces no
record at all — deleting all such nodes from the page leaves the extractor
output unchanged — and every emitted record's minute is the parsed minute
of some node of the located region. -/
theorem minuteless_events_discarded (page : EventsPage) (mid : String)
    (homeTeamId awayTeamId : Option String) (pmap : List (String × String)) :
    parseOverviewEventsFromHtml (filterMinutePage page) mid homeTeamId awayTeamId pmap =
      parseOverviewEventsFromHtml page mid homeTeamId awayTeamId pmap ∧
    ∀ e ∈ parseOverviewEventsFromHtml page mid homeTeamId awayTeamId pmap,
      ∃ ev ∈ eventNodesOf page, minuteOfNode ev = some e.minute := by
  constructor
  · unfold parseOverviewEventsFromHtml
    rw [findAtburdirGrid_filterMinutePage]
    cases findAtburdirGrid page with
    | none => rfl
    | some g =>
      show assignIdxFrom 0 (List.insertionSort evLe (processEvents mid _ pmap
        (g.events.filter (fun ev => (minuteOfNode ev).isSome)) [])) = _
      rw [processEvents_filter_minutes]
  · intro e he
    unfold parseOverviewEventsFromHtml at he
    unfold eventNodesOf
    cases hg : findAtburdirGrid page with
    | none => rw [hg] at he; exact absurd he (List.not_mem_nil e)
    | some g =>
      rw [hg] at he
      rcases mem_assignIdxFrom 0 _ e he with ⟨e2, he2, j, rfl⟩
      have he2m : e2 ∈ processEvents mid
          (fun cls => mainColumnTeam cls homeTeamId awayTeamId) pmap g.events [] :=
        (List.perm_insertionSort evLe _).mem_iff.mp he2
      rcases processEvents_minutes mid _ pmap g.events [] e2 he2m with ⟨ev, hev, hm⟩
      exact ⟨ev, hev, hm⟩

/-! ## Crawl termination (C3) -/

/-- The crawl state at page budget `fuel` having already crawled pages
`1..q` (so the accumulated state is `accPages pages q`). -/
def crawlAt (pages : Nat → List String) (fuel q : Nat) : List String × Nat :=
  crawlGo pages fuel q (accPages pages q).1 (accPages pages q).2

theorem crawlAt_succ (pages : Nat → List String) (fuel q : Nat) :
    crawlAt pages (fuel + 1) q =
      if gainAfter pages q = 0 then ((accPages pages (q + 1)).2, 1)
      else ((crawlAt pages fuel (q + 1)).1, (crawlAt pages fuel (q + 1)).2 + 1) := rfl

theorem crawlAt_spec (pages : Nat → List String) :
    ∀ (fuel q : Nat),
      (crawlAt pages fuel q).2 ≤ fuel ∧
      (crawlAt pages fuel q).1 = (accPages pages (q + (crawlAt pages fuel q).2)).2 ∧
      (1 ≤ fuel → 1 ≤ (crawlAt pages fuel q).2) ∧
      ((crawlAt pages fuel q).2 < fuel → gainAfter pages (q + (crawlAt pages fuel q).2 - 1) = 0) ∧
      (∀ j, j < (crawlAt pages fuel q).2 - 1 → gainAfter pages (q + j) ≠ 0) := by
  intro fuel
  induction fuel with
  | zero =>
    intro q
    have h0 : (crawlAt pages 0 q).2 = 0 := rfl
    refine ⟨Nat.le_of_eq h0, rfl, by omega, by rw [h0]; omega, fun j hj => ?_⟩
    rw [h0] at hj
    exact absurd hj (by omega)
  | succ fuel ih =>
    intro q
    rw [crawlAt_succ]
    by_cases hg : gainAfter pages q = 0
    · rw [if_pos hg]
      have e2 : (((accPages pages (q + 1)).2, 1) : List String × Nat).2 = 1 := rfl
      refine ⟨by rw [e2]; omega, rfl, fun _ => by rw [e2], fun _ => ?_, fun j hj => ?_⟩
      · rw [e2]
        simpa using hg
      · rw [e2] at hj
        exact absurd hj (by omega)
    · rw [if_neg hg]
      obtain ⟨h1, h2, _, h4, h5⟩ := ih (q + 1)
      have e2 : (((crawlAt pages fuel (q + 1)).1, (crawlAt pages fuel (q + 1)).2 + 1) :
          List String × Nat).2 = (crawlAt pages fuel (q + 1)).2 + 1 := rfl
      refine ⟨by rw [e2]; omega, ?_, by rw [e2]; omega, ?_, ?_⟩
      · rw [e2, h2]
        have harith : q + 1 + (crawlAt pages fuel (q + 1)).2 =
            q + ((crawlAt pages fuel (q + 1)).2 + 1) := by omega
        rw [harith]
      · rw [e2]
        intro hlt
        have hres := h4 (by omega)
        have harith : q + 1 + (crawlAt pages fuel (q + 1)).2 - 1 =
            q + ((crawlAt pages fuel (q + 1)).2 + 1) - 1 := by omega
        rw [harith] at hres
        exact hres
      · rw [e2]
        intro j hj
        rcases Nat.eq_zero_or_pos j with rfl | hpos
        · simpa using hg
        · have hres := h5 (j - 1) (by omega)
          have harith : q + 1 + (j - 1) = q + j := by omega
          rw [harith] at hres
          exact hres

/-- C3: the match-discovery crawl executes at most `maxPages` page fetches,
every page before the stopping page contributed at least one new
identifier, the loop stops early only at a page contributing zero new
identifiers, and the returned list is exactly the identifiers accumulated
through pages `1..k` where `k` is the number of pages fetched. -/
theorem crawl_terminates_on_no_new_ids (pages : Nat → List String) (maxPages : Nat) :
    (discoverMatchIds pages maxPages).2 ≤ maxPages ∧
    (1 ≤ maxPages → 1 ≤ (discoverMatchIds pages maxPages).2) ∧
    (discoverMatchIds pages maxPages).1 =
      (accPages pages (discoverMatchIds pages maxPages).2).2 ∧
    ((discoverMatchIds pages maxPages).2 < maxPages →
      gainAfter pages ((discoverMatchIds pages maxPages).2 - 1) = 0) ∧
    (∀ j, j + 1 < (discoverMatchIds pages maxPages).2 → gainAfter pages j ≠ 0) := by
  have hs := crawlAt_spec pages maxPages 0
  have heq : discoverMatchIds pages maxPages = crawlAt pages maxPages 0 := rfl
  rw [heq]
  obtain ⟨h1, h2, h3, h4, h5⟩ := hs
  refine ⟨h1, h3, ?_, ?_, ?_⟩
  · rw [h2, Nat.zero_add]
  · intro hlt
    have := h4 hlt
    have harith : 0 + (crawlAt pages maxPages 0).2 - 1 = (crawlAt pages maxPages 0).2 - 1 := by omega
    rw [harith] at this
    exact this
  · intro j hj
    have := h5 j (by omega)
    have harith : 0 + j = j := by omega
    rw [harith] at this
    exact this

/-! ## Substitution minute backfill (C8) -/

/-- All queued updates applied to one stored row, in order. -/
def applyUpdsRow (us : List LineupUpd) (r : StoredLineup) : StoredLineup :=
  us.foldl (fun r u => applyUpdRow u r) r

theorem applySub_eq_map (lineups : List StoredLineup) (events : List EventRow) :
    applySubMinutesToLineups lineups events =
      lineups.map (applyUpdsRow (collectSubUpdates (byPlayerMap lineups) events)) := by
  unfold applySubMinutesToLineups applyUpdsRow
  generalize collectSubUpdates (byPlayerMap lineups) events = us
  induction us generalizing lineups with
  | nil => simp
  | cons u us ih =>
    simp only [List.foldl_cons]
    rw [ih (lineups.map (applyUpdRow u)), List.map_map]
    rfl

theorem applyUpdRow_frame (u : LineupUpd) (r : StoredLineup) :
    (applyUpdRow u r).id = r.id ∧ (applyUpdRow u r).ksi_player_id = r.ksi_player_id ∧
    (applyUpdRow u r).ksi_match_id = r.ksi_match_id ∧
    (applyUpdRow u r).lineup_idx = r.lineup_idx ∧
    (applyUpdRow u r).player_name = r.player_name := by
  unfold applyUpdRow
  split <;> exact ⟨rfl, rfl, rfl, rfl, rfl⟩

theorem applyUpdsRow_frame (us : List LineupUpd) (r : StoredLineup) :
    (applyUpdsRow us r).id = r.id ∧ (applyUpdsRow us r).ksi_player_id = r.ksi_player_id ∧
    (applyUpdsRow us r).ksi_match_id = r.ksi_match_id ∧
    (applyUpdsRow us r).lineup_idx = r.lineup_idx ∧
    (applyUpdsRow us r).player_name = r.player_name := by
  induction us generalizing r with
  | nil => exact ⟨rfl, rfl, rfl, rfl, rfl⟩
  | cons u us ih =>
    have h1 := applyUpdRow_frame u r
    have h2 := ih (applyUpdRow u r)
    unfold applyUpdsRow at h2 ⊢
    rw [List.foldl_cons]
    exact ⟨h2.1.trans h1.1, h2.2.1.trans h1.2.1, h2.2.2.1.trans h1.2.2.1,
      h2.2.2.2.1.trans h1.2.2.2.1, h2.2.2.2.2.trans h1.2.2.2.2⟩

theorem applyUpdsRow_min_in_unchanged (us : List LineupUpd) (r : StoredLineup)
    (h : ∀ u ∈ us, u.id = r.id → u.minute_in = none) :
    (applyUpdsRow us r).minute_in = r.minute_in := by
  induction us generalizing r with
  | nil => rfl
  | cons u us ih =>
    unfold applyUpdsRow
    rw [List.foldl_cons]
    have hid := (applyUpdRow_frame u r).1
    have hstep : (applyUpdRow u r).minute_in = r.minute_in := by
      unfold applyUpdRow
      split
      · rename_i hr
        have hu : u.minute_in = none := h u (List.mem_cons_self u us) hr.symm
        rw [hu]
      · rfl
    have htail : ∀ u2 ∈ us, u2.id = (applyUpdRow u r).id → u2.minute_in = none := by
      intro u2 hu2 hid2
      exact h u2 (List.mem_cons_of_mem u hu2) (hid2.trans hid)
    exact (ih (applyUpdRow u r) htail).trans hstep

theorem applyUpdsRow_min_out_unchanged (us : List LineupUpd) (r : StoredLineup)
    (h : ∀ u ∈ us, u.id = r.id → u.minute_out = none) :
    (applyUpdsRow us r).minute_out = r.minute_out := by
  induction us generalizing r with
  | nil => rfl
  | cons u us ih =>
    unfold applyUpdsRow
    rw [List.foldl_cons]
    have hid := (applyUpdRow_frame u r).1
    have hstep : (applyUpdRow u r).minute_out = r.minute_out := by
      unfold applyUpdRow
      split
      · rename_i hr
        have hu : u.minute_out = none := h u (List.mem_cons_self u us) hr.symm
        rw [hu]
      · rfl
    have htail : ∀ u2 ∈ us, u2.id = (applyUpdRow u r).id → u2.minute_out = none := by
      intro u2 hu2 hid2
      exact h u2 (List.mem_cons_of_mem u hu2) (hid2.trans hid)
    exact (ih (applyUpdRow u r) htail).trans hstep

theorem byPlayerMap_mem (lineups : List StoredLineup) :
    ∀ pid ent, (pid, ent) ∈ byPlayerMap lineups →
      ∃ row ∈ lineups, row.ksi_player_id = some pid ∧ row.id = ent.id ∧
        row.minute_in = ent.minute_in ∧ row.minute_out = ent.minute_out := by
  have main : ∀ (ls : List StoredLineup) (acc : List (String × ByPlayerEntry)) pid ent,
      (pid, ent) ∈ ls.foldl (fun m r =>
        match r.ksi_player_id with
        | some pid2 => (pid2, { id := r.id, minute_in := r.minute_in, minute_out := r.minute_out }) :: m
        | none => m) acc →
      (pid, ent) ∈ acc ∨ ∃ row ∈ ls, row.ksi_player_id = some pid ∧ row.id = ent.id ∧
        row.minute_in = ent.minute_in ∧ row.minute_out = ent.minute_out := by
    intro ls
    induction ls with
    | nil => intro acc pid ent h; exact Or.inl h
    | cons r ls ih =>
      intro acc pid ent h
      rw [List.foldl_cons] at h
      rcases ih _ pid ent h with hacc | ⟨row, hrow, hp⟩
      · cases hpid : r.ksi_player_id with
        | none =>
          rw [hpid] at hacc
          exact Or.inl hacc
        | some pid2 =>
          rw [hpid] at hacc
          rcases List.mem_cons.mp hacc with heq | hacc2
          · obtain ⟨h1, h2⟩ := Prod.mk.inj heq
            refine Or.inr ⟨r, List.mem_cons_self r ls, ?_, ?_, ?_, ?_⟩
            · rw [hpid, h1]
            · rw [h2]
            · rw [h2]
            · rw [h2]
          · exact Or.inl hacc2
      · exact Or.inr ⟨row, List.mem_cons_of_mem r hrow, hp⟩
  intro pid ent h
  rcases main lineups [] pid ent h with habs | hok
  · exact absurd habs (List.not_mem_nil _)
  · exact hok

theorem lookup_mem_byPlayer (m : List (String × ByPlayerEntry)) (pid : String)
    (ent : ByPlayerEntry) (h : List.lookup pid m = some ent) : (pid, ent) ∈ m := by
  induction m with
  | nil => exact absurd h (by simp [List.lookup])
  | cons kv rest ih =>
    rw [List.lookup] at h
    by_cases hbeq : (pid == kv.1) = true
    · rw [hbeq] at h
      obtain rfl := Option.some.inj h
      have : pid = kv.1 := eq_of_beq hbeq
      rw [this]
      exact List.mem_cons_self kv rest
    · rw [Bool.not_eq_true] at hbeq
      rw [hbeq] at h
      exact List.mem_cons_of_mem kv (ih h)

theorem subOnUpds_sound (byP : List (String × ByPlayerEntry)) (e : EventRow) (u : LineupUpd)
    (hu : u ∈ subOnUpds byP e) :
    ∃ pid, e.sub_on_ksi_player_id = some pid ∧ ∃ ent, List.lookup pid byP = some ent ∧
      ent.id = u.id ∧ ent.minute_in = none ∧ u.minute_in = some e.minute ∧
      u.minute_out = none := by
  cases hOn : e.sub_on_ksi_player_id with
  | none =>
    simp only [subOnUpds, hOn] at hu
    exact absurd hu (List.not_mem_nil u)
  | some onId =>
    cases hLk : List.lookup onId byP with
    | none =>
      simp only [subOnUpds, hOn, hLk] at hu
      exact absurd hu (List.not_mem_nil u)
    | some ent =>
      by_cases hNull : ent.minute_in = none
      · simp only [subOnUpds, hOn, hLk, if_pos hNull] at hu
        obtain rfl := List.mem_singleton.mp hu
        exact ⟨onId, rfl, ent, hLk, rfl, hNull, rfl, rfl⟩
      · simp only [subOnUpds, hOn, hLk, if_neg hNull] at hu
        exact absurd hu (List.not_mem_nil u)

theorem subOffUpds_sound (byP : List (String × ByPlayerEntry)) (e : EventRow) (u : LineupUpd)
    (hu : u ∈ subOffUpds byP e) :
    ∃ pid, e.sub_off_ksi_player_id = some pid ∧ ∃ ent, List.lookup pid byP = some ent ∧
      ent.id = u.id ∧ ent.minute_out = none ∧ u.minute_out = some e.minute ∧
      u.minute_in = none := by
  cases hOff : e.sub_off_ksi_player_id with
  | none =>
    simp only [subOffUpds, hOff] at hu
    exact absurd hu (List.not_mem_nil u)
  | some offId =>
    cases hLk : List.lookup offId byP with
    | none =>
      simp only [subOffUpds, hOff, hLk] at hu
      exact absurd hu (List.not_mem_nil u)
    | some ent =>
      by_cases hNull : ent.minute_out = none
      · simp only [subOffUpds, hOff, hLk, if_pos hNull] at hu
        obtain rfl := List.mem_singleton.mp hu
        exact ⟨offId, rfl, ent, hLk, rfl, hNull, rfl, rfl⟩
      · simp only [subOffUpds, hOff, hLk, if_neg hNull] at hu
        exact absurd hu (List.not_mem_nil u)

theorem collectSubUpdates_sound (byP : List (String × ByPlayerEntry)) :
    ∀ (events : List EventRow) (u : LineupUpd), u ∈ collectSubUpdates byP events →
      (∀ m, u.minute_in = some m →
        ∃ e ∈ events, e.event_type = "substitution" ∧ ∃ pid,
          e.sub_on_ksi_player_id = some pid ∧ ∃ ent, List.lookup pid byP = some ent ∧
          ent.id = u.id ∧ ent.minute_in = none) ∧
      (∀ m, u.minute_out = some m →
        ∃ e ∈ events, e.event_type = "substitution" ∧ ∃ pid,
          e.sub_off_ksi_player_id = some pid ∧ ∃ ent, List.lookup pid byP = some ent ∧
          ent.id = u.id ∧ ent.minute_out = none) := by
  intro events
  induction events with
  | nil => intro u hu; exact absurd hu (List.not_mem_nil u)
  | cons e rest ih =>
    intro u hu
    rw [collectSubUpdates] at hu
    by_cases hty : e.event_type = "substitution"
    · rw [if_pos hty] at hu
      have weaken : (∀ m, u.minute_in = some m →
            ∃ e2 ∈ rest, e2.event_type = "substitution" ∧ ∃ pid,
              e2.sub_on_ksi_player_id = some pid ∧ ∃ ent, List.lookup pid byP = some ent ∧
              ent.id = u.id ∧ ent.minute_in = none) ∧
          (∀ m, u.minute_out = some m →
            ∃ e2 ∈ rest, e2.event_type = "substitution" ∧ ∃ pid,
              e2.sub_off_ksi_player_id = some pid ∧ ∃ ent, List.lookup pid byP = some ent ∧
              ent.id = u.id ∧ ent.minute_out = none) →
          (∀ m, u.minute_in = some m →
            ∃ e2 ∈ e :: rest, e2.event_type = "substitution" ∧ ∃ pid,
              e2.sub_on_ksi_player_id = some pid ∧ ∃ ent, List.lookup pid byP = some ent ∧
              ent.id = u.id ∧ ent.minute_in = none) ∧
          (∀ m, u.minute_out = some m →
            ∃ e2 ∈ e :: rest, e2.event_type = "substitution" ∧ ∃ pid,
              e2.sub_off_ksi_player_id = some pid ∧ ∃ ent, List.lookup pid byP = some ent ∧
              ent.id = u.id ∧ ent.minute_out = none) := by
        intro h
        constructor
        · intro m hm
          rcases h.1 m hm with ⟨e2, he2, hp⟩
          exact ⟨e2, List.mem_cons_of_mem e he2, hp⟩
        · intro m hm
          rcases h.2 m hm with ⟨e2, he2, hp⟩
          exact ⟨e2, List.mem_cons_of_mem e he2, hp⟩
      rcases List.mem_append.mp hu with hon | hu2
      · obtain ⟨pid, hpid, ent, hlk, hentid, hentnull, humin, humout⟩ :=
          subOnUpds_sound byP e u hon
        constructor
        · intro m hm
          exact ⟨e, List.mem_cons_self e rest, hty, pid, hpid, ent, hlk, hentid, hentnull⟩
        · intro m hm
          rw [humout] at hm
          exact Option.noConfusion hm
      rcases List.mem_append.mp hu2 with hoff | hrest
      · obtain ⟨pid, hpid, ent, hlk, hentid, hentnull, humout, humin⟩ :=
          subOffUpds_sound byP e u hoff
        constructor
        · intro m hm
          rw [humin] at hm
          exact Option.noConfusion hm
        · intro m hm
          exact ⟨e, List.mem_cons_self e rest, hty, pid, hpid, ent, hlk, hentid, hentnull⟩
      · exact weaken (ih u hrest)
    · rw [if_neg hty] at hu
      obtain ⟨h1, h2⟩ := ih u hu
      constructor
      · intro m hm
        rcases h1 m hm with ⟨e2, he2, hp⟩
        exact ⟨e2, List.mem_cons_of_mem e he2, hp⟩
      · intro m hm
        rcases h2 m hm with ⟨e2, he2, hp⟩
        exact ⟨e2, List.mem_cons_of_mem e he2, hp⟩

/-- C8: the minute backfill writes `minute_in` (for a sub-on player) or
`minute_out` (for a sub-off player) onto a lineup row only when that field
was previously null — an already-set field is never overwritten — and it
modifies no other rows and no other fields. -/
theorem sub_backfill_no_overwrite (lineups : List StoredLineup) (events : List EventRow)
    (hnd : (lineups.map (fun r => r.id)).Nodup) :
    List.Forall₂ (fun pre post =>
      post.id = pre.id ∧ post.ksi_player_id = pre.ksi_player_id ∧
      post.ksi_match_id = pre.ksi_match_id ∧ post.lineup_idx = pre.lineup_idx ∧
      post.player_name = pre.player_name ∧
      (∀ v, pre.minute_in = some v → post.minute_in = some v) ∧
      (∀ v, pre.minute_out = some v → post.minute_out = some v) ∧
      (post.minute_in = pre.minute_in ∨ (pre.minute_in = none ∧ ∃ e ∈ events,
        e.event_type = "substitution" ∧ e.sub_on_ksi_player_id = pre.ksi_player_id)) ∧
      (post.minute_out = pre.minute_out ∨ (pre.minute_out = none ∧ ∃ e ∈ events,
        e.event_type = "substitution" ∧ e.sub_off_ksi_player_id = pre.ksi_player_id)))
      lineups (applySubMinutesToLineups lineups events) := by
  rw [applySub_eq_map]
  rw [List.forall₂_map_right_iff]
  rw [List.forall₂_same]
  intro pre hpre
  set us := collectSubUpdates (byPlayerMap lineups) events with hus
  obtain ⟨f1, f2, f3, f4, f5⟩ := applyUpdsRow_frame us pre
  -- a queued minute_in update targeting pre's id forces pre.minute_in = none
  have hin : (∀ u ∈ us, u.id = pre.id → u.minute_in = none) ∨
      (pre.minute_in = none ∧ ∃ e ∈ events,
        e.event_type = "substitution" ∧ e.sub_on_ksi_player_id = pre.ksi_player_id) := by
    by_cases hall : ∀ u ∈ us, u.id = pre.id → u.minute_in = none
    · exact Or.inl hall
    · push_neg at hall
      obtain ⟨u, hu, huid, hum⟩ := hall
      cases hm : u.minute_in with
      | none => exact absurd hm hum
      | some m =>
        obtain ⟨e, he, hty, pid, hpid, ent, hlk, hentid, hentin⟩ :=
          (collectSubUpdates_sound (byPlayerMap lineups) events u hu).1 m hm
        obtain ⟨row, hrow, hrpid, hrid, hrin, _⟩ :=
          byPlayerMap_mem lineups pid ent (lookup_mem_byPlayer _ _ _ hlk)
        have hsameid : row.id = pre.id := by rw [hrid, hentid, huid]
        have : row = pre := List.inj_on_of_nodup_map hnd hrow hpre hsameid
        subst this
        refine Or.inr ⟨by rw [hrin, hentin], e, he, hty, by rw [hpid, hrpid]⟩
  have hout : (∀ u ∈ us, u.id = pre.id → u.minute_out = none) ∨
      (pre.minute_out = none ∧ ∃ e ∈ events,
        e.event_type = "substitution" ∧ e.sub_off_ksi_player_id = pre.ksi_player_id) := by
    by_cases hall : ∀ u ∈ us, u.id = pre.id → u.minute_out = none
    · exact Or.inl hall
    · push_neg at hall
      obtain ⟨u, hu, huid, hum⟩ := hall
      cases hm : u.minute_out with
      | none => exact absurd hm hum
      | some m =>
        obtain ⟨e, he, hty, pid, hpid, ent, hlk, hentid, hentout⟩ :=
          (collectSubUpdates_sound (byPlayerMap lineups) events u hu).2 m hm
        obtain ⟨row, hrow, hrpid, hrid, _, hrout⟩ :=
          byPlayerMap_mem lineups pid ent (lookup_mem_byPlayer _ _ _ hlk)
        have hsameid : row.id = pre.id := by rw [hrid, hentid, huid]
        have : row = pre := List.inj_on_of_nodup_map hnd hrow hpre hsameid
        subst this
        refine Or.inr ⟨by rw [hrout, hentout], e, he, hty, by rw [hpid, hrpid]⟩
  refine ⟨f1, f2, f3, f4, f5, ?_, ?_, ?_, ?_⟩
  · intro v hv
    rcases hin with hall | ⟨hnone, _⟩
    · rw [applyUpdsRow_min_in_unchanged us pre hall]
      exact hv
    · rw [hnone] at hv
      exact absurd hv (by simp)
  · intro v hv
    rcases hout with hall | ⟨hnone, _⟩
    · rw [applyUpdsRow_min_out_unchanged us pre hall]
      exact hv
    · rw [hnone] at hv
      exact absurd hv (by simp)
  · rcases hin with hall | hr
    · exact Or.inl (applyUpdsRow_min_in_unchanged us pre hall)
    · exact Or.inr hr
  · rcases hout with hall | hr
    · exact Or.inl (applyUpdsRow_min_out_unchanged us pre hall)
    · exact Or.inr hr

/-- A stored lineup row with no minutes set. -/
def lineupRowA : StoredLineup where
  id := 1
  ksi_player_id := some "5"
  minute_in := none
  minute_out := none
  ksi_match_id := "42"
  lineup_idx := 0
  player_name := "A"

/-- A stored lineup row with a minute_in already set. -/
def lineupRowB : StoredLineup where
  id := 2
  ksi_player_id := some "6"
  minute_in := some 1
  minute_out := none
  ksi_match_id := "42"
  lineup_idx := 1
  player_name := "B"

/-- A substitution event bringing player 5 on for player 6 at minute 60. -/
def subEvent : EventRow where
  ksi_match_id := "42"
  event_idx := 0
  minute := 60
  stoppage := none
  event_type := "substitution"
  ksi_team_id := some "1"
  ksi_player_id := none
  player_name := none
  sub_on_ksi_player_id := some "5"
  sub_off_ksi_player_id := some "6"
  sub_on_name := none
  sub_off_name := none
  raw_text := ""

/-- Witness for C8 at a concrete two-row lineup and one substitution. -/
theorem sub_backfill_no_overwrite_witness :
    List.Forall₂ (fun pre post =>
      post.id = pre.id ∧ post.ksi_player_id = pre.ksi_player_id ∧
      post.ksi_match_id = pre.ksi_match_id ∧ post.lineup_idx = pre.lineup_idx ∧
      post.player_name = pre.player_name ∧
      (∀ v, pre.minute_in = some v → post.minute_in = some v) ∧
      (∀ v, pre.minute_out = some v → post.minute_out = some v) ∧
      (post.minute_in = pre.minute_in ∨ (pre.minute_in = none ∧ ∃ e ∈ [subEvent],
        e.event_type = "substitution" ∧ e.sub_on_ksi_player_id = pre.ksi_player_id)) ∧
      (post.minute_out = pre.minute_out ∨ (pre.minute_out = none ∧ ∃ e ∈ [subEvent],
        e.event_type = "substitution" ∧ e.sub_off_ksi_player_id = pre.ksi_player_id)))
      [lineupRowA, lineupRowB] (applySubMinutesToLineups [lineupRowA, lineupRowB] [subEvent]) :=
  sub_backfill_no_overwrite [lineupRowA, lineupRowB] [subEvent] (by decide)

end IcelandDB
